import Mathlib

/-!
Verification development for the cursor-linux-upgrade repository.

The definitions below are a shallow embedding of `src/cursor_updater.py`
(and the shared `extract_version` of `src/version_check.py`): pure helpers
become Lean functions on `String`/`List Char`, and the orchestrator `main`
becomes a function from an environment record (the outcomes of the external
world: filesystem, network, subprocesses, user input) to a terminal outcome
plus a record of the externally visible effects it performed.
-/

namespace CursorUpdater

/-! ## Version parsing and ordering

The source delegates semantic-version handling to the external `packaging`
library (`version.parse`, `>=`), which is not part of this repository.
Modelled from the spec: a semantic version is a sequence of dot-separated
numeric components, and comparison is componentwise with the shorter side
padded with zeros. -/

/-- Splits a character list at every dot, keeping empty components. -/
def splitDots : List Char → List (List Char)
  | [] => [[]]
  | c :: cs =>
    if c = '.' then [] :: splitDots cs
    else
      match splitDots cs with
      | [] => [[c]]
      | g :: gs => (c :: g) :: gs

/-- Numeric value of a digit string. -/
def digitsToNat (l : List Char) : Nat :=
  l.foldl (fun n c => n * 10 + (c.toNat - '0'.toNat)) 0

/-- Modelled from the spec: semantic-version parsing (the code calls the
external packaging library's `version.parse`). A version parses exactly when
every dot-separated component is a non-empty digit string; the parse is the
list of component values. Anything else is a parse failure (`none`),
mirroring `packaging.version.InvalidVersion`. -/
def parseVer (s : String) : Option (List Nat) :=
  if (splitDots s.data).all (fun p => !p.isEmpty && p.all Char.isDigit) then
    some ((splitDots s.data).map digitsToNat)
  else none

/-- Modelled from the spec: semantic-version ordering on parsed component
lists, componentwise with zero padding (the ordering the packaging library
uses on release segments). -/
def verCompare : List Nat → List Nat → Ordering
  | [], bs => if bs.all (fun b => b == 0) then Ordering.eq else Ordering.lt
  | a :: as, [] => if a = 0 then verCompare as [] else Ordering.gt
  | a :: as, b :: bs =>
    if a < b then Ordering.lt
    else if b < a then Ordering.gt
    else verCompare as bs

/-! ## The comparator (main, lines 278-288)

`main` short-circuits with "Already up to date" exactly when an installed
version is present, the latest version is not the sentinel "Unknown", and
either (a) both sides parse semantically and installed >= latest, or (b) a
parse failed and the raw strings are equal — in both cases only when the
force flag is unset. `updateNeeded` is the negation: the run continues into
the check report or the mutation pipeline. -/

/-- Embedding of the comparison step of `main` (cursor_updater.py 279-288):
`true` exactly when the run returns early with "Already up to date". Line
279 guards the block with `if installed_version and ...`: an empty
installed string is falsy in Python, so it skips the comparison exactly
like an absent one. -/
def upToDateShortCircuit (installed : Option String) (latest : String)
    (force : Bool) : Bool :=
  match installed with
  | none => false
  | some inst =>
    if inst = "" then false
    else if latest = "Unknown" then false
    else
      match parseVer inst, parseVer latest with
      | some vi, some vl => !(verCompare vi vl == Ordering.lt) && !force
      | _, _ => (inst == latest) && !force

/-- The comparator's decision: an update is needed exactly when the
up-to-date short circuit does not fire. -/
def updateNeeded (installed : Option String) (latest : String)
    (force : Bool) : Bool :=
  !(upToDateShortCircuit installed latest force)

/-- Claim C1: with an installed version present, the latest version not the
sentinel "Unknown", both sides parsing as semantic versions and the force
flag unset, the comparator decides update-needed exactly when the latest
version is semantically greater than the installed one; in particular it
decides no update when the two are semantically equal. -/
theorem comparator_semver_iff (inst latest : String) (vi vl : List Nat)
    (hl : latest ≠ "Unknown")
    (hi : parseVer inst = some vi) (hj : parseVer latest = some vl) :
    (updateNeeded (some inst) latest false = true ↔
      verCompare vi vl = Ordering.lt) ∧
    (verCompare vi vl = Ordering.eq →
      updateNeeded (some inst) latest false = false) := by
  have hne : inst ≠ "" := by
    intro h
    subst h
    have he : parseVer "" = none := by decide
    rw [he] at hi
    exact Option.noConfusion hi
  simp only [updateNeeded, upToDateShortCircuit, hi, hj, if_neg hne,
    if_neg hl]
  constructor
  · cases h : verCompare vi vl <;> simp <;> decide
  · intro h
    simp [h]
    decide

/-- Witness for C1 at installed "1.2.3", latest "1.2.4". -/
theorem comparator_semver_iff_witness :
    updateNeeded (some "1.2.3") "1.2.4" false = true ∧
    verCompare [1, 2, 3] [1, 2, 4] = Ordering.lt :=
  ⟨(comparator_semver_iff "1.2.3" "1.2.4" [1, 2, 3] [1, 2, 4]
      (by decide) (by decide) (by decide)).1.mpr (by decide), by decide⟩

/-- Claim C3 (counterexample to the claim as stated): at installed = ""
and latest = "" the claim's hypotheses hold — the installed version is
present, the latest is not "Unknown", and semantic parsing of both sides
fails — yet the comparator does not decide by string equality: Python's
truthiness test on line 279 (`if installed_version and ...`) treats the
empty installed string as falsy, skips the whole comparison block, and the
run proceeds with update needed even though the raw strings are equal. -/
theorem comparator_fallback_counterexample :
    ¬ (updateNeeded (some "") "" false = true ↔ ("" : String) ≠ "") ∧
    parseVer "" = none ∧ ("" : String) ≠ "Unknown" := by
  refine ⟨?_, by decide, by decide⟩
  intro h
  exact (h.mp (by decide)) rfl

/-- Claim C3 (amended): with an installed version present and non-empty,
the latest version not "Unknown", at least one side failing semantic parse
and the force flag unset, the comparator falls back to exact string
comparison: update needed exactly when the raw strings differ. (An empty
installed string is falsy in Python and skips the comparison block,
proceeding as a fresh install.) The fallback is a total function of the
inputs — the degraded mode terminates normally. -/
theorem comparator_fallback_string_inequality (inst latest : String)
    (hne : inst ≠ "")
    (hl : latest ≠ "Unknown")
    (hp : parseVer inst = none ∨ parseVer latest = none) :
    updateNeeded (some inst) latest false = true ↔ inst ≠ latest := by
  simp only [updateNeeded, upToDateShortCircuit, if_neg hne, if_neg hl]
  cases h1 : parseVer inst <;> cases h2 : parseVer latest <;>
    simp_all

/-- Witness for C3 at installed "abc" (unparseable), latest "1.2.3". -/
theorem comparator_fallback_witness :
    updateNeeded (some "abc") "1.2.3" false = true :=
  (comparator_fallback_string_inequality "abc" "1.2.3" (by decide)
    (by decide) (Or.inl (by decide))).mpr (by decide)

/-! ## Version reader (get_installed_version, cursor_updater.py 39-49)

The filesystem is abstracted as two inputs: whether the desktop file exists,
and the result of reading it (`none` models an IOError/PermissionError
raised by `read_text`, `some lines` its successful line split). -/

/-- Boolean test that the pattern list is a prefix of the second list;
models Python's `str.startswith` on the relevant ASCII data. -/
def listStartsWith : List Char → List Char → Bool
  | [], _ => true
  | _ :: _, [] => false
  | p :: ps, c :: cs => p == c && listStartsWith ps cs

/-- The marker key of the installed-version line in cursor.desktop. -/
def versionMarker : String := "X-AppImage-Version="

/-- Whether a line of the desktop file carries the installed-version marker
(`line.startswith("X-AppImage-Version=")`). -/
def isMarkerLine (l : String) : Bool :=
  listStartsWith versionMarker.data l.data

/-- Characters stripped by Python's `str.strip()` (ASCII whitespace). -/
def pySpace (c : Char) : Bool :=
  c == ' ' || c == '\t' || c == '\n' || c == '\r' || c == '\x0B' || c == '\x0C'

/-- Everything after the first '=' of a line; models
`line.split("=", 1)[1]` for a line that contains an '='. -/
def afterFirstEq : List Char → List Char
  | [] => []
  | c :: cs => if c == '=' then cs else afterFirstEq cs

/-- The version value of a marker line:
`line.split("=", 1)[1].strip()`. -/
def desktopValue (line : String) : String :=
  String.mk
    ((((afterFirstEq line.data).dropWhile pySpace).reverse.dropWhile
        pySpace).reverse)

/-- Embedding of `get_installed_version` (cursor_updater.py 39-49): `none`
when the file is missing, the read raises, or no line starts with the
marker; otherwise the stripped value of the first marker line. -/
def get_installed_version (fileExists : Bool)
    (contents : Option (List String)) : Option String :=
  if fileExists then
    match contents with
    | none => none
    | some lines =>
      match lines.find? (fun l => isMarkerLine l) with
      | some l => some (desktopValue l)
      | none => none
  else none

/-- Claim C9: the version reader returns `none` when the metadata file does
not exist, when reading it fails (IOError/PermissionError, non-fatal), or
when no line carries the installed-version marker key; otherwise it returns
the stripped value of the first marker line. -/
theorem get_installed_version_spec (fileExists : Bool)
    (contents : Option (List String)) :
    (fileExists = false → get_installed_version fileExists contents = none) ∧
    (contents = none → get_installed_version fileExists contents = none) ∧
    (∀ lines, contents = some lines →
      (∀ l ∈ lines, isMarkerLine l = false) →
      get_installed_version fileExists contents = none) ∧
    (∀ lines l, fileExists = true → contents = some lines →
      lines.find? (fun l => isMarkerLine l) = some l →
      get_installed_version fileExists contents = some (desktopValue l)) := by
  refine ⟨?_, ?_, ?_, ?_⟩
  · intro h; simp [get_installed_version, h]
  · intro h; cases fileExists <;> simp [get_installed_version, h]
  · intro lines hc hnone
    cases fileExists <;> simp [get_installed_version, hc]
    rw [List.find?_eq_none.mpr]
    intro x hx
    simp [hnone x hx]
  · intro lines l hex hc hf
    simp [get_installed_version, hex, hc, hf]

/-- Witness for C9 on a concrete desktop file whose marker line carries a
padded version value. -/
theorem get_installed_version_spec_witness :
    get_installed_version true
      (some ["Name=Cursor", "X-AppImage-Version= 1.2.3 "]) =
      some (desktopValue "X-AppImage-Version= 1.2.3 ") ∧
    desktopValue "X-AppImage-Version= 1.2.3 " = "1.2.3" :=
  ⟨(get_installed_version_spec true
      (some ["Name=Cursor", "X-AppImage-Version= 1.2.3 "])).2.2.2
      ["Name=Cursor", "X-AppImage-Version= 1.2.3 "]
      "X-AppImage-Version= 1.2.3 " rfl rfl (by decide), by decide⟩

/-! ## Release resolver: extract_version

Embedding of `extract_version` (version_check.py 29-35 and
cursor_updater.py 81-84): `re.search(r"\b(\d+\.\d+\.\d+)\b", url)`,
returning the matched text, or "Unknown" when there is no match. The regex
engine is embedded for this one pattern: a left-to-right scan over the
string; at each position a match requires a word boundary before the first
digit, then three maximal digit runs separated by dots, then a word
boundary after the last digit. -/

/-- Python regex word character (ASCII fragment of `\w`). -/
def wordChar (c : Char) : Bool := c.isAlphanum || c == '_'

/-- Attempts to match `\d+\.\d+\.\d+\b` at the head of the list, returning
the matched characters. Greedy digit runs never backtrack usefully for this
pattern, so each run is the maximal one. -/
def matchTripleFrom (l : List Char) : Option (List Char) :=
  let d1 := l.takeWhile Char.isDigit
  let r1 := l.dropWhile Char.isDigit
  if d1.isEmpty then none
  else
    match r1 with
    | '.' :: t1 =>
      let d2 := t1.takeWhile Char.isDigit
      let r2 := t1.dropWhile Char.isDigit
      if d2.isEmpty then none
      else
        match r2 with
        | '.' :: t2 =>
          let d3 := t2.takeWhile Char.isDigit
          let r3 := t2.dropWhile Char.isDigit
          if d3.isEmpty then none
          else
            match r3 with
            | [] => some (d1 ++ '.' :: (d2 ++ '.' :: d3))
            | c :: _ =>
              if wordChar c then none
              else some (d1 ++ '.' :: (d2 ++ '.' :: d3))
        | _ => none
    | _ => none

/-- Whether the leading word boundary holds at the current scan position,
given the character just before it (`none` at the start of the string). -/
def boundaryOk : Option Char → Bool
  | none => true
  | some p => !wordChar p

/-- Left-to-right scan of `re.search` for the pattern
`\b(\d+\.\d+\.\d+)\b`: at each position whose leading boundary holds, try
the triple; on failure advance one character. -/
def searchTriple : Option Char → List Char → Option (List Char)
  | _, [] => none
  | prev, c :: cs =>
    if boundaryOk prev then
      match matchTripleFrom (c :: cs) with
      | some m => some m
      | none => searchTriple (some c) cs
    else searchTriple (some c) cs

/-- Embedding of `extract_version`: the text of the first
boundary-delimited match of `\d+\.\d+\.\d+`, or "Unknown". -/
def extract_version (url : String) : String :=
  match searchTriple none url.data with
  | some m => String.mk m
  | none => "Unknown"

/-- Declarative reading of the bare pattern `\d+\.\d+\.\d+`: the list is
exactly three non-empty digit runs separated by dots. -/
def TripleDecomp (m : List Char) : Prop :=
  ∃ d1 d2 d3, m = d1 ++ '.' :: (d2 ++ '.' :: d3) ∧
    d1 ≠ [] ∧ d2 ≠ [] ∧ d3 ≠ [] ∧
    (∀ c ∈ d1, Char.isDigit c) ∧ (∀ c ∈ d2, Char.isDigit c) ∧
    (∀ c ∈ d3, Char.isDigit c)

/-- Position `j` of the list holds a word character. -/
def WordAt (s : List Char) (j : Nat) : Prop :=
  ∃ c, s.get? j = some c ∧ wordChar c = true

/-- The pattern `\b\d+\.\d+\.\d+\b` matches the text `m` at position `i`
of `s`: `m` is a triple, occurs at `i`, and both word boundaries hold. -/
def BoundedAt (s : List Char) (i : Nat) (m : List Char) : Prop :=
  TripleDecomp m ∧ (∃ post, s.drop i = m ++ post) ∧
  (i = 0 ∨ ¬ WordAt s (i - 1)) ∧ ¬ WordAt s (i + m.length)

/-- Variant of `BoundedAt` relative to a suffix of the scanned string,
carrying the character immediately before the suffix. -/
def BoundedRel (prev : Option Char) (l : List Char) (i : Nat)
    (m : List Char) : Prop :=
  TripleDecomp m ∧ (∃ post, l.drop i = m ++ post) ∧
  (match i with
   | 0 => ∀ p, prev = some p → wordChar p = false
   | Nat.succ k => ¬ WordAt l k) ∧
  ¬ WordAt l (i + m.length)

/-- A triple is never the empty string. -/
theorem tripleDecomp_ne_nil {m : List Char} (h : TripleDecomp m) : m ≠ [] := by
  obtain ⟨d1, d2, d3, rfl, -, -, -, -, -, -⟩ := h
  simp

/-- Digits are word characters. -/
theorem wordChar_of_digit {c : Char} (h : Char.isDigit c = true) :
    wordChar c = true := by
  simp [wordChar, Char.isAlphanum, h]

/-- Non-word characters are not digits. -/
theorem digit_of_not_word {c : Char} (h : wordChar c = false) :
    Char.isDigit c = false := by
  cases hd : Char.isDigit c
  · rfl
  · rw [wordChar_of_digit hd] at h
    exact Bool.noConfusion h

/-- A list that is an all-satisfying block followed by a rest whose head
fails the predicate splits exactly there under takeWhile/dropWhile. -/
theorem takeWhile_unique {p : Char → Bool} {d r : List Char}
    (hd : ∀ c ∈ d, p c = true)
    (hr : ∀ c, r.head? = some c → p c = false) :
    (d ++ r).takeWhile p = d ∧ (d ++ r).dropWhile p = r := by
  have h1 : (d ++ r).takeWhile p = d ++ r.takeWhile p :=
    List.takeWhile_append_of_pos hd
  have h2 : (d ++ r).dropWhile p = r.dropWhile p :=
    List.dropWhile_append_of_pos hd
  cases r with
  | nil =>
    constructor <;> simp [h1, h2] <;> exact hd
  | cons c t =>
    have hc := hr c rfl
    constructor
    · rw [h1, List.takeWhile_cons, hc]
      simp
    · rw [h2, List.dropWhile_cons, hc]
      simp

/-- The head matcher succeeds with `m` exactly when the scanned list starts
with the triple `m` and the character after it (if any) is not a word
character. -/
theorem matchTripleFrom_some_iff (l m : List Char) :
    matchTripleFrom l = some m ↔
      (TripleDecomp m ∧ ∃ post, l = m ++ post ∧
        (∀ c, post.head? = some c → wordChar c = false)) := by
  constructor
  · intro h
    simp only [matchTripleFrom] at h
    split at h
    · exact Option.noConfusion h
    next he1 =>
    split at h
    next t1 heq1 =>
      split at h
      · exact Option.noConfusion h
      next he2 =>
      split at h
      next t2 heq2 =>
        split at h
        · exact Option.noConfusion h
        next he3 =>
        split at h
        next heq3 =>
          replace h := Option.some.inj h
          subst h
          refine ⟨⟨_, _, _, rfl, by simpa using he1, by simpa using he2,
            by simpa using he3, fun c hc => List.mem_takeWhile_imp hc,
            fun c hc => List.mem_takeWhile_imp hc,
            fun c hc => List.mem_takeWhile_imp hc⟩, [], ?_, by simp⟩
          conv_lhs => rw [← List.takeWhile_append_dropWhile Char.isDigit l,
            heq1, ← List.takeWhile_append_dropWhile Char.isDigit t1, heq2,
            ← List.takeWhile_append_dropWhile Char.isDigit t2, heq3]
          simp
        next c tail heq3 =>
          split at h
          · exact Option.noConfusion h
          next hw =>
          replace h := Option.some.inj h
          subst h
          refine ⟨⟨_, _, _, rfl, by simpa using he1, by simpa using he2,
            by simpa using he3, fun c hc => List.mem_takeWhile_imp hc,
            fun c hc => List.mem_takeWhile_imp hc,
            fun c hc => List.mem_takeWhile_imp hc⟩, c :: tail, ?_, ?_⟩
          · conv_lhs => rw [← List.takeWhile_append_dropWhile Char.isDigit l,
              heq1, ← List.takeWhile_append_dropWhile Char.isDigit t1, heq2,
              ← List.takeWhile_append_dropWhile Char.isDigit t2, heq3]
            simp
          · intro c' hc'
            cases hc'
            simpa using hw
      next heq2 => exact Option.noConfusion h
    next heq1 => exact Option.noConfusion h
  · rintro ⟨⟨d1, d2, d3, rfl, h1, h2, h3, hd1, hd2, hd3⟩, post, rfl, hpost⟩
    have e0 : (d1 ++ '.' :: (d2 ++ '.' :: d3)) ++ post =
        d1 ++ ('.' :: (d2 ++ ('.' :: (d3 ++ post)))) := by simp
    rw [e0]
    obtain ⟨ht1, hr1⟩ := takeWhile_unique (p := Char.isDigit) hd1
      (r := '.' :: (d2 ++ ('.' :: (d3 ++ post))))
      (fun c hc => by cases hc; decide)
    obtain ⟨ht2, hr2⟩ := takeWhile_unique (p := Char.isDigit) hd2
      (r := '.' :: (d3 ++ post)) (fun c hc => by cases hc; decide)
    obtain ⟨ht3, hr3⟩ := takeWhile_unique (p := Char.isDigit) hd3
      (r := post) (fun c hc => digit_of_not_word (hpost c hc))
    simp only [matchTripleFrom, ht1, hr1, ht2, hr2, ht3, hr3]
    cases post with
    | nil =>
      simp [List.isEmpty_iff, h1, h2, h3]
    | cons c tail =>
      have hwc := hpost c rfl
      simp [List.isEmpty_iff, h1, h2, h3, hwc]

/-- Indexing an append at the length of the left part reads the head of the
right part. -/
theorem get?_append_length (m post : List Char) :
    (m ++ post).get? m.length = post.head? := by
  induction m with
  | nil => cases post <;> rfl
  | cons c cs ih => simpa using ih

/-- Word-character position zero of a cons cell. -/
theorem wordAt_cons_zero (c : Char) (cs : List Char) :
    WordAt (c :: cs) 0 ↔ wordChar c = true := by
  simp [WordAt]

/-- Word-character positions shift across a cons cell. -/
theorem wordAt_cons_succ (c : Char) (cs : List Char) (k : Nat) :
    WordAt (c :: cs) (k + 1) ↔ WordAt cs k := Iff.rfl

/-- A failed leading boundary rules out a match at the scan position. -/
theorem not_boundedRel_of_boundary {prev : Option Char} {l : List Char}
    {m : List Char} (hb : boundaryOk prev = false) :
    ¬ BoundedRel prev l 0 m := by
  rintro ⟨-, -, hlead, -⟩
  cases prev with
  | none => simp [boundaryOk] at hb
  | some p =>
    have := hlead p rfl
    simp [boundaryOk, this] at hb

/-- A bounded match at the scan position forces the head matcher to
succeed with the same text. -/
theorem boundedRel_zero_match {prev : Option Char} {l m : List Char} :
    BoundedRel prev l 0 m → matchTripleFrom l = some m := by
  rintro ⟨htrip, ⟨post, hdrop⟩, -, htrail⟩
  rw [List.drop_zero] at hdrop
  refine (matchTripleFrom_some_iff l m).mpr ⟨htrip, post, hdrop, ?_⟩
  intro c hc
  cases hw : wordChar c
  · rfl
  · exfalso
    apply htrail
    refine ⟨c, ?_, hw⟩
    rw [Nat.zero_add, hdrop, get?_append_length]
    exact hc

/-- A successful head match under a good leading boundary is a bounded
match at the scan position. -/
theorem boundedRel_zero_of_match {prev : Option Char} {l m : List Char}
    (hb : boundaryOk prev = true) (hm : matchTripleFrom l = some m) :
    BoundedRel prev l 0 m := by
  obtain ⟨htrip, post, hdec, hpost⟩ := (matchTripleFrom_some_iff l m).mp hm
  refine ⟨htrip, ⟨post, by simpa using hdec⟩, ?_, ?_⟩
  · intro p hp
    subst hp
    simpa [boundaryOk] using hb
  · rintro ⟨c, hc, hw⟩
    rw [Nat.zero_add, hdec, get?_append_length] at hc
    rw [hpost c hc] at hw
    exact Bool.noConfusion hw

/-- Bounded matches shift with the scan position across a cons cell. -/
theorem boundedRel_shift (prev : Option Char) (c : Char) (cs : List Char)
    (i : Nat) (m : List Char) :
    BoundedRel prev (c :: cs) (i + 1) m ↔ BoundedRel (some c) cs i m := by
  unfold BoundedRel
  have hdrop : (c :: cs).drop (i + 1) = cs.drop i := rfl
  rw [hdrop]
  have htrail : (i + 1 + m.length) = (i + m.length) + 1 := by omega
  rw [htrail]
  constructor
  · rintro ⟨h1, h2, h3, h4⟩
    refine ⟨h1, h2, ?_, (wordAt_cons_succ c cs _).not.mp h4⟩
    cases i with
    | zero =>
      intro p hp
      cases hp
      by_contra hw
      exact h3 ((wordAt_cons_zero c cs).mpr (by simpa using hw))
    | succ k => exact h3
  · rintro ⟨h1, h2, h3, h4⟩
    refine ⟨h1, h2, ?_, (wordAt_cons_succ c cs _).not.mpr h4⟩
    cases i with
    | zero =>
      intro hW
      have := (wordAt_cons_zero c cs).mp hW
      have h0 := h3 c rfl
      rw [h0] at this
      exact Bool.noConfusion this
    | succ k => exact h3

/-- When the scan fails there is no bounded match anywhere in the suffix. -/
theorem searchTriple_none_spec (l : List Char) :
    ∀ (prev : Option Char), searchTriple prev l = none →
      ∀ i m, ¬ BoundedRel prev l i m := by
  induction l with
  | nil =>
    rintro prev - i m ⟨htrip, ⟨post, hdrop⟩, -, -⟩
    rw [List.drop_nil] at hdrop
    exact tripleDecomp_ne_nil htrip
      (List.append_eq_nil.mp hdrop.symm).1
  | cons c cs ih =>
    intro prev h i m hB
    rw [searchTriple] at h
    by_cases hb : boundaryOk prev
    · rw [if_pos hb] at h
      cases hm : matchTripleFrom (c :: cs) with
      | some m0 => rw [hm] at h; exact Option.noConfusion h
      | none =>
        rw [hm] at h
        cases i with
        | zero => exact Option.noConfusion (hm ▸ boundedRel_zero_match hB)
        | succ k =>
          exact ih (some c) h k m ((boundedRel_shift prev c cs k m).mp hB)
    · rw [if_neg hb] at h
      cases i with
      | zero => exact not_boundedRel_of_boundary (by simpa using hb) hB
      | succ k =>
        exact ih (some c) h k m ((boundedRel_shift prev c cs k m).mp hB)

/-- When the scan returns a text it is a bounded match at the least
position of the suffix that carries any bounded match. -/
theorem searchTriple_some_spec (l : List Char) :
    ∀ (prev : Option Char) (m : List Char), searchTriple prev l = some m →
      ∃ i, BoundedRel prev l i m ∧
        ∀ j m', BoundedRel prev l j m' → i ≤ j := by
  induction l with
  | nil => intro prev m h; exact Option.noConfusion h
  | cons c cs ih =>
    intro prev m h
    rw [searchTriple] at h
    by_cases hb : boundaryOk prev
    · rw [if_pos hb] at h
      cases hm : matchTripleFrom (c :: cs) with
      | some m0 =>
        rw [hm] at h
        cases h
        exact ⟨0, boundedRel_zero_of_match hb hm, fun j m' _ => Nat.zero_le j⟩
      | none =>
        rw [hm] at h
        obtain ⟨i, hB, hmin⟩ := ih (some c) m h
        refine ⟨i + 1, (boundedRel_shift prev c cs i m).mpr hB, ?_⟩
        intro j m' hB'
        cases j with
        | zero => exact absurd (hm ▸ boundedRel_zero_match hB') (by simp)
        | succ k =>
          exact Nat.succ_le_succ
            (hmin k m' ((boundedRel_shift prev c cs k m').mp hB'))
    · rw [if_neg hb] at h
      obtain ⟨i, hB, hmin⟩ := ih (some c) m h
      refine ⟨i + 1, (boundedRel_shift prev c cs i m).mpr hB, ?_⟩
      intro j m' hB'
      cases j with
      | zero => exact absurd hB' (not_boundedRel_of_boundary (by simpa using hb))
      | succ k =>
        exact Nat.succ_le_succ
          (hmin k m' ((boundedRel_shift prev c cs k m').mp hB'))

/-- At the start of the string the relative and absolute match predicates
agree. -/
theorem boundedRel_none_iff (l : List Char) (i : Nat) (m : List Char) :
    BoundedRel none l i m ↔ BoundedAt l i m := by
  unfold BoundedRel BoundedAt
  cases i with
  | zero => simp
  | succ k => simp

/-- Claim C2 (amended): extract_version returns the text of the first
word-boundary-delimited occurrence of the pattern `\d+\.\d+\.\d+` in the
URL (the source regex carries `\b` on both sides), and the sentinel
"Unknown" exactly when no boundary-delimited occurrence exists; it never
raises. -/
theorem extract_version_first_bounded_match (url : String) :
    (extract_version url = "Unknown" ∧ ∀ i m, ¬ BoundedAt url.data i m) ∨
    (∃ i m, BoundedAt url.data i m ∧ extract_version url = String.mk m ∧
      ∀ j m', BoundedAt url.data j m' → i ≤ j) := by
  cases h : searchTriple none url.data with
  | none =>
    left
    refine ⟨by simp [extract_version, h], fun i m hB => ?_⟩
    exact searchTriple_none_spec url.data none h i m
      ((boundedRel_none_iff url.data i m).mpr hB)
  | some m =>
    right
    obtain ⟨i, hB, hmin⟩ := searchTriple_some_spec url.data none m h
    exact ⟨i, m, (boundedRel_none_iff url.data i m).mp hB,
      by simp [extract_version, h],
      fun j m' hB' => hmin j m' ((boundedRel_none_iff url.data j m').mpr hB')⟩

/-- Claim C2 (counterexample to the claim as stated): the URL "x1.2.3"
contains the substring "1.2.3" matching the bare pattern `\d+\.\d+\.\d+`,
yet extract_version returns "Unknown", because the source regex requires a
word boundary before the first digit and 'x' is a word character. -/
theorem extract_version_plain_counterexample :
    extract_version "x1.2.3" = "Unknown" ∧
    TripleDecomp ['1', '.', '2', '.', '3'] ∧
    "x1.2.3".data = ['x'] ++ ['1', '.', '2', '.', '3'] ++ [] :=
  ⟨rfl,
   ⟨['1'], ['2'], ['3'], rfl, by decide, by decide, by decide,
    by decide, by decide, by decide⟩,
   rfl⟩

/-! ## The update orchestrator (main, cursor_updater.py 249-327)

`main` is sequential and mutates the world only through named helpers, so
it is embedded as a function of an environment record holding the outcome
of every external interaction: dependency and sudo checks, the installed
version read, the fetch of the latest release, the command-line flags, and
the success/failure of each subprocess-backed step. The result is the
terminal outcome together with a record of the externally visible effects
the run performed. -/

/-- The three report shapes of a check-only run (main, lines 290-297). -/
inductive Report where
  | notInstalled (latest : String)
  | latestUnknown (installed : String)
  | updateAvailable (installed latest : String)
  deriving DecidableEq, Repr

/-- Which report a check-only run prints once it reaches the report code
(main, lines 291-296). Line 291 tests `if not installed_version:`, which
is true for an absent installed version and for the falsy empty string
alike, so both select the not-installed shape. -/
def reportShape (installed : Option String) (latest : String) : Report :=
  match installed with
  | none => Report.notInstalled latest
  | some inst =>
    if inst = "" then Report.notInstalled latest
    else if latest = "Unknown" then Report.latestUnknown inst
    else Report.updateAvailable inst latest

/-- Terminal outcomes of a run of `main` (including the wrapper's exit
paths: `sys.exit(msg)` terminates with status 1, plain return with 0). -/
inductive Outcome where
  | exitDeps
  | exitSudo
  | exitFetch
  | upToDate
  | checkReport (r : Report)
  | abortedBackup
  | abortedDownload
  | abortedInstall
  | success (relinkWarning : Bool)
  deriving DecidableEq, Repr

/-- Process exit status of each outcome: `sys.exit(message)` exits with
status 1, normal returns with 0. -/
def exitCode : Outcome → Nat
  | Outcome.exitDeps => 1
  | Outcome.exitSudo => 1
  | Outcome.exitFetch => 1
  | Outcome.upToDate => 0
  | Outcome.checkReport _ => 0
  | Outcome.abortedBackup => 1
  | Outcome.abortedDownload => 1
  | Outcome.abortedInstall => 1
  | Outcome.success _ => 0

/-- Externally visible effects of a run: fields are, in order, whether the
download step was entered, whether the temporary AppImage file was created,
whether it was deleted again, whether the old install directory was
removed, whether the new payload was moved into the install path, and
whether the symlink/desktop-database step was entered. -/
structure Effects where
  downloadAttempted : Bool
  artifactCreated : Bool
  artifactDeleted : Bool
  installRemoved : Bool
  installReplaced : Bool
  relinkAttempted : Bool
  deriving DecidableEq, Repr

/-- The all-false effects record: nothing externally visible happened. -/
def noEffects : Effects := ⟨false, false, false, false, false, false⟩

/-- The install directory was mutated (removed or replaced). -/
def installMutated (e : Effects) : Bool :=
  e.installRemoved || e.installReplaced

/-- External outcomes consumed by `extract_and_install`
(cursor_updater.py 179-215): whether the self-extraction subprocess
succeeds, whether it produces the squashfs-root payload directory, whether
the chrome-sandbox helper is present and its chown/chmod succeed, and
whether the remove-old and move-new commands succeed. -/
structure InstEnv where
  extractCmdOk : Bool
  squashfsProduced : Bool
  sandboxPresent : Bool
  sandboxCmdsOk : Bool
  removeCmdOk : Bool
  moveCmdOk : Bool
  deriving DecidableEq, Repr

/-- Result of the installer: overall success plus which of the two
install-directory mutations were executed. -/
structure InstResult where
  ok : Bool
  removedOld : Bool
  movedNew : Bool
  deriving DecidableEq, Repr

/-- Embedding of `extract_and_install` (cursor_updater.py 179-215). Any
subprocess exception is caught and turned into `False`; the remove-old
step runs only when the install directory exists, and only after
extraction has produced the payload and the sandbox permissions step has
not raised. A move failure after a successful removal leaves the install
directory absent: the accepted atomicity gap. -/
def extract_and_install (e : InstEnv) (installDirExists : Bool) :
    InstResult :=
  if !e.extractCmdOk then ⟨false, false, false⟩
  else if !e.squashfsProduced then ⟨false, false, false⟩
  else if e.sandboxPresent && !e.sandboxCmdsOk then ⟨false, false, false⟩
  else if installDirExists then
    if !e.removeCmdOk then ⟨false, false, false⟩
    else if !e.moveCmdOk then ⟨false, true, false⟩
    else ⟨true, true, true⟩
  else
    if !e.moveCmdOk then ⟨false, false, false⟩
    else ⟨true, false, true⟩

/-- The outcomes of every external interaction of one run of `main`. -/
structure Env where
  depsOk : Bool
  sudoOk : Bool
  installedVersion : Option String
  fetchResult : Option (String × String)
  force : Bool
  noBackup : Bool
  check : Bool
  installDirExists : Bool
  backupOk : Bool
  userContinues : Bool
  downloadOk : Bool
  extractCmdOk : Bool
  squashfsProduced : Bool
  sandboxPresent : Bool
  sandboxCmdsOk : Bool
  removeCmdOk : Bool
  moveCmdOk : Bool
  relinkOk : Bool
  unlinkOk : Bool
  deriving DecidableEq, Repr

/-- Embedding of `main` (cursor_updater.py 249-327): dependency check,
sudo check, installed-version read, fetch, comparison short-circuit,
check-only report, backup with decline-to-continue abort, download (the
temporary file is created before streaming starts and is not removed on a
download failure), install, relink (failure only warns), and cleanup
(unlink of the artifact, failure only warns). -/
def mainRun (env : Env) : Outcome × Effects :=
  if !env.depsOk then (Outcome.exitDeps, noEffects)
  else if !env.sudoOk then (Outcome.exitSudo, noEffects)
  else
    match env.fetchResult with
    | none => (Outcome.exitFetch, noEffects)
    | some (_, latest) =>
      if upToDateShortCircuit env.installedVersion latest env.force then
        (Outcome.upToDate, noEffects)
      else if env.check then
        (Outcome.checkReport (reportShape env.installedVersion latest),
          noEffects)
      else if (!env.noBackup && env.installDirExists) &&
          (!env.backupOk && !env.userContinues) then
        (Outcome.abortedBackup, noEffects)
      else if !env.downloadOk then
        (Outcome.abortedDownload, ⟨true, true, false, false, false, false⟩)
      else
        let inst := extract_and_install
          ⟨env.extractCmdOk, env.squashfsProduced, env.sandboxPresent,
            env.sandboxCmdsOk, env.removeCmdOk, env.moveCmdOk⟩
          env.installDirExists
        if !inst.ok then
          (Outcome.abortedInstall,
            ⟨true, true, false, inst.removedOld, inst.movedNew, false⟩)
        else
          (Outcome.success (!env.relinkOk),
            ⟨true, true, env.unlinkOk, inst.removedOld, inst.movedNew, true⟩)

/-- Claim C5: the install directory is mutated (removed or replaced) only
when the comparator decided an update is needed and the run is not
check-only. Up-to-date runs, check-only runs, and runs aborting before the
install step are all covered: they leave the install directory unchanged. -/
theorem no_mutation_unless_needed (env : Env)
    (h : installMutated (mainRun env).2 = true) :
    env.check = false ∧ ∃ url latest,
      env.fetchResult = some (url, latest) ∧
      updateNeeded env.installedVersion latest env.force = true := by
  unfold mainRun at h
  split at h
  · simp [installMutated, noEffects] at h
  split at h
  · simp [installMutated, noEffects] at h
  split at h
  · simp [installMutated, noEffects] at h
  next url latest heq =>
    split at h
    · simp [installMutated, noEffects] at h
    next hsc =>
    split at h
    next hchk => simp [installMutated, noEffects] at h
    next hchk =>
    refine ⟨by simpa using hchk, url, latest, heq, ?_⟩
    simp [updateNeeded]
    simpa using hsc

/-- Environment of a fully successful update run. -/
def envSuccess : Env :=
  ⟨true, true, some "1.0.0", some ("https://dl/cursor-2.0.0.AppImage", "2.0.0"),
   false, false, false, true, true, true, true, true, true, false, true,
   true, true, true, true⟩

/-- Witness for C5: a successful update run does mutate the install
directory, and the theorem yields that its comparator demanded it. -/
theorem no_mutation_unless_needed_witness :
    installMutated (mainRun envSuccess).2 = true ∧
    envSuccess.check = false ∧ ∃ url latest,
      envSuccess.fetchResult = some (url, latest) ∧
      updateNeeded envSuccess.installedVersion latest envSuccess.force = true :=
  ⟨by decide, no_mutation_unless_needed envSuccess (by decide)⟩

/-- Claim C4 (amended): a check-only run that passes the up-to-date short
circuit reaches the report, prints exactly one of the three fixed shapes —
the not-installed shape when the installed version is absent or the falsy
empty string, the installed-but-latest-unknown shape when a non-empty
installed version meets the "Unknown" sentinel, the update-available shape
otherwise — and performs no externally visible effect. Check-only runs the
short circuit catches print none of them — the counterexample below —
which is the one restriction added to the claim. -/
theorem check_only_report_shapes (env : Env) (url latest : String)
    (hd : env.depsOk = true) (hs : env.sudoOk = true)
    (hf : env.fetchResult = some (url, latest))
    (hsc : upToDateShortCircuit env.installedVersion latest env.force = false)
    (hc : env.check = true) :
    mainRun env =
      (Outcome.checkReport (reportShape env.installedVersion latest),
        noEffects) ∧
    ((∃ l, reportShape env.installedVersion latest = Report.notInstalled l) ∨
     (∃ i, reportShape env.installedVersion latest = Report.latestUnknown i) ∨
     (∃ i l, reportShape env.installedVersion latest =
        Report.updateAvailable i l)) ∧
    ((env.installedVersion = none ∨ env.installedVersion = some "") →
      reportShape env.installedVersion latest = Report.notInstalled latest) ∧
    (∀ inst, env.installedVersion = some inst → inst ≠ "" →
      latest = "Unknown" →
      reportShape env.installedVersion latest = Report.latestUnknown inst) ∧
    (∀ inst, env.installedVersion = some inst → inst ≠ "" →
      latest ≠ "Unknown" →
      reportShape env.installedVersion latest =
        Report.updateAvailable inst latest) := by
  refine ⟨by simp [mainRun, hd, hs, hf, hsc, hc], ?_, ?_, ?_, ?_⟩
  · cases hi : env.installedVersion with
    | none => exact Or.inl ⟨latest, by simp [reportShape]⟩
    | some inst =>
      by_cases he : inst = ""
      · exact Or.inl ⟨latest, by simp [reportShape, he]⟩
      by_cases hu : latest = "Unknown"
      · exact Or.inr (Or.inl ⟨inst, by simp [reportShape, he, hu]⟩)
      · exact Or.inr (Or.inr ⟨inst, latest, by simp [reportShape, he, hu]⟩)
  · rintro (hi | hi) <;> simp [reportShape, hi]
  · intro inst hi he hu; simp [reportShape, hi, he, hu]
  · intro inst hi he hu; simp [reportShape, hi, he, hu]

/-- Environment of a check-only run with no installed version. -/
def envCheckFresh : Env :=
  ⟨true, true, none, some ("https://dl/cursor-2.0.0.AppImage", "2.0.0"),
   false, false, true, false, true, true, true, true, true, false, true,
   true, true, true, true⟩

/-- Witness for C4 (amended) on a fresh-install check-only run. -/
theorem check_only_report_shapes_witness :
    mainRun envCheckFresh =
      (Outcome.checkReport (Report.notInstalled "2.0.0"), noEffects) := by
  have h := check_only_report_shapes envCheckFresh
    "https://dl/cursor-2.0.0.AppImage" "2.0.0" rfl rfl rfl (by decide) rfl
  rw [h.1, h.2.2.1 (Or.inl rfl)]

/-- Environment of a check-only run on an already up-to-date install. -/
def envCheckUpToDate : Env :=
  ⟨true, true, some "1.2.3", some ("https://dl/cursor-1.2.3.AppImage", "1.2.3"),
   false, false, true, true, true, true, true, true, true, false, true,
   true, true, true, true⟩

/-- Claim C4 (counterexample to the claim as stated): this check-only
invocation terminates in the up-to-date outcome — `main` returns at the
"Already up to date" short circuit before the report code — so it prints
none of the three report shapes, refuting "every check-only invocation
prints one of these three shapes". -/
theorem check_only_uptodate_counterexample :
    envCheckUpToDate.check = true ∧
    mainRun envCheckUpToDate = (Outcome.upToDate, noEffects) ∧
    ∀ r, Outcome.upToDate ≠ Outcome.checkReport r :=
  ⟨rfl, by decide, fun r h => Outcome.noConfusion h⟩

/-- Claim C6: when the self-extraction runs but does not produce the
squashfs-root payload directory, the install step fails, neither the
remove-old nor the move-new mutation is executed (the install directory is
exactly as before), the relink step is never entered, and the run aborts
with a failure exit status. -/
theorem extraction_failure_aborts (env : Env) (url latest : String)
    (hd : env.depsOk = true) (hs : env.sudoOk = true)
    (hf : env.fetchResult = some (url, latest))
    (hsc : upToDateShortCircuit env.installedVersion latest env.force = false)
    (hc : env.check = false)
    (hb : ((!env.noBackup && env.installDirExists) &&
      (!env.backupOk && !env.userContinues)) = false)
    (hdl : env.downloadOk = true)
    (hex : env.extractCmdOk = true)
    (hsq : env.squashfsProduced = false) :
    (mainRun env).1 = Outcome.abortedInstall ∧
    (mainRun env).2.installRemoved = false ∧
    (mainRun env).2.installReplaced = false ∧
    (mainRun env).2.relinkAttempted = false ∧
    exitCode (mainRun env).1 = 1 := by
  simp [mainRun, hd, hs, hf, hsc, hc, hb, hdl, extract_and_install, hex,
    hsq, exitCode]

/-- Environment of a run whose extraction produces no payload directory. -/
def envExtractionFailure : Env :=
  ⟨true, true, some "1.0.0", some ("https://dl/cursor-2.0.0.AppImage", "2.0.0"),
   false, true, false, true, true, true, true, true, false, false, true,
   true, true, true, true⟩

/-- Witness for C6 on a concrete failing-extraction run. -/
theorem extraction_failure_aborts_witness :
    (mainRun envExtractionFailure).1 = Outcome.abortedInstall ∧
    (mainRun envExtractionFailure).2.installRemoved = false ∧
    (mainRun envExtractionFailure).2.installReplaced = false ∧
    (mainRun envExtractionFailure).2.relinkAttempted = false ∧
    exitCode (mainRun envExtractionFailure).1 = 1 :=
  extraction_failure_aborts envExtractionFailure
    "https://dl/cursor-2.0.0.AppImage" "2.0.0" rfl rfl rfl (by decide) rfl
    (by decide) rfl rfl rfl

/-- Claim C7: when the backup step runs, fails, and the user declines the
continue-without-backup confirmation, the run terminates in the aborted
state with a failure exit status, the download step is never entered, and
the install directory is untouched. -/
theorem backup_decline_aborts (env : Env) (url latest : String)
    (hd : env.depsOk = true) (hs : env.sudoOk = true)
    (hf : env.fetchResult = some (url, latest))
    (hsc : upToDateShortCircuit env.installedVersion latest env.force = false)
    (hc : env.check = false)
    (hnb : env.noBackup = false) (hie : env.installDirExists = true)
    (hbk : env.backupOk = false) (hu : env.userContinues = false) :
    mainRun env = (Outcome.abortedBackup, noEffects) ∧
    exitCode (mainRun env).1 = 1 ∧
    (mainRun env).2.downloadAttempted = false ∧
    installMutated (mainRun env).2 = false := by
  have hm : mainRun env = (Outcome.abortedBackup, noEffects) := by
    simp [mainRun, hd, hs, hf, hsc, hc, hnb, hie, hbk, hu]
  refine ⟨hm, ?_, ?_, ?_⟩ <;> rw [hm] <;> decide

/-- Environment of a run whose backup fails and whose user declines. -/
def envBackupDecline : Env :=
  ⟨true, true, some "1.0.0", some ("https://dl/cursor-2.0.0.AppImage", "2.0.0"),
   false, false, false, true, false, false, true, true, true, false, true,
   true, true, true, true⟩

/-- Witness for C7 on a concrete declined-backup run. -/
theorem backup_decline_aborts_witness :
    mainRun envBackupDecline = (Outcome.abortedBackup, noEffects) ∧
    exitCode (mainRun envBackupDecline).1 = 1 ∧
    (mainRun envBackupDecline).2.downloadAttempted = false ∧
    installMutated (mainRun envBackupDecline).2 = false :=
  backup_decline_aborts envBackupDecline
    "https://dl/cursor-2.0.0.AppImage" "2.0.0" rfl rfl rfl (by decide) rfl
    rfl rfl rfl rfl

/-- Environment of a run whose download fails after the temporary file was
created (the NamedTemporaryFile is opened before streaming begins). -/
def envDownloadFailure : Env :=
  ⟨true, true, some "1.0.0", some ("https://dl/cursor-2.0.0.AppImage", "2.0.0"),
   false, true, false, true, true, true, false, true, true, false, true,
   true, true, true, true⟩

/-- Claim C8 (refuting evaluation): on the download-failure exit path the
run terminates with the temporary artifact created but never deleted —
`download_appimage` returns None without unlinking the NamedTemporaryFile
(delete=False) and `main` exits "Download failed" with no cleanup, so the
artifact is not released on every exit path as the spec requires. The
install-failure exit at line 312 leaks it the same way; only the success
path (including a relink warning) reaches the unlink of step 8. -/
theorem download_failure_leaks_artifact :
    (mainRun envDownloadFailure).1 = Outcome.abortedDownload ∧
    (mainRun envDownloadFailure).2.artifactCreated = true ∧
    (mainRun envDownloadFailure).2.artifactDeleted = false ∧
    exitCode (mainRun envDownloadFailure).1 = 1 := by decide

/-- Claim C10: a check-only run with the force flag set and equal,
parseable installed and latest versions skips the up-to-date short circuit
and prints the update-available shape with the same version on both
sides. -/
theorem check_force_equal_versions (env : Env) (url v : String)
    (pv : List Nat)
    (hd : env.depsOk = true) (hs : env.sudoOk = true)
    (hf : env.fetchResult = some (url, v))
    (hi : env.installedVersion = some v)
    (hp : parseVer v = some pv) (hv : v ≠ "Unknown")
    (hforce : env.force = true) (hc : env.check = true) :
    (mainRun env).1 =
      Outcome.checkReport (Report.updateAvailable v v) := by
  have hne : v ≠ "" := by
    intro h
    subst h
    have he : parseVer "" = none := by decide
    rw [he] at hp
    exact Option.noConfusion hp
  have hsc : upToDateShortCircuit (some v) v env.force = false := by
    simp [upToDateShortCircuit, if_neg hne, hp, if_neg hv, hforce]
  simp [mainRun, hd, hs, hf, hi, hsc, hc, reportShape, if_neg hne,
    if_neg hv]

/-- Environment of a forced check-only run on an up-to-date install. -/
def envCheckForce : Env :=
  ⟨true, true, some "1.2.3", some ("https://dl/cursor-1.2.3.AppImage", "1.2.3"),
   true, false, true, true, true, true, true, true, true, false, true,
   true, true, true, true⟩

/-- Witness for C10 at version "1.2.3" on both sides. -/
theorem check_force_equal_versions_witness :
    (mainRun envCheckForce).1 =
      Outcome.checkReport (Report.updateAvailable "1.2.3" "1.2.3") :=
  check_force_equal_versions envCheckForce
    "https://dl/cursor-1.2.3.AppImage" "1.2.3" [1, 2, 3] rfl rfl rfl rfl
    (by decide) (by decide) rfl rfl

end CursorUpdater
